import Mathlib

/-!
# Verification of the prefecture population dashboard core

Shallow embedding of the two core components of the repository:

* the time-series aggregator inside `fetchPopulation` (src/lib/api.ts,
  lines 71–105): filter raw MLIT feature records by prefecture name,
  parse year/value with JavaScript `parseInt(_, 10)` semantics, sum the
  values per year in an insertion-ordered map, and sort ascending by year;
* the selection/cache state machine of the `usePopulationData` hook
  (src/hooks/usePopulationData.ts): `handlePrefectureToggle`,
  the derived `chartSeries`, and `getPrefectureColor`.

The hook's three `useState` maps are modelled as fields of a `HookState`
record; functional state updates are applied immediately, matching the
behaviour of the single-threaded event loop at the statement level.  The
asynchronous fetch is split into its synchronous prefix (part of
`handlePrefectureToggle`) and a separate `settleFetch` step that runs when
the promise settles; a scheduler chooses an arbitrary interleaving of
toggle and settle events (`Event`, `run`).  The `try/catch` around the
fetch is modelled by `settleFetch` being a total function taking the
settlement outcome (`none` = the collaborator threw) — no error escapes
the toggle operation by construction.
-/

namespace Prefs

/-- `Prefecture` from src/types (part_001): `{ prefCode: number; prefName: string }`. -/
structure Prefecture where
  prefCode : Int
  prefName : String
  deriving Repr, DecidableEq

/-- `PopulationValue` from src/types: `{ year: number; value: number }`. -/
structure PopulationValue where
  year : Int
  value : Int
  deriving Repr, DecidableEq

/-- `PopulationData` from src/types: `{ prefCode; prefName; data: PopulationValue[] }`. -/
structure PopulationData where
  prefCode : Int
  prefName : String
  data : List PopulationValue
  deriving Repr, DecidableEq

/-- `ChartSeries` from src/types: `{ name: string; data: [number, number][]; color }`.
The color is an `Option` because `getPrefectureColor` can produce
JavaScript `undefined` (an out-of-range array read) for non-positive codes. -/
structure ChartSeries where
  name : String
  data : List (Int × Int)
  color : Option String
  deriving Repr, DecidableEq

/-! ## JavaScript `parseInt(s, 10)` -/

/-- Whitespace skipped by JavaScript `parseInt` (the common subset). -/
def isJsSpace (c : Char) : Bool :=
  c = ' ' || c = '\t' || c = '\n' || c = '\r'

/-- Decimal digit test. -/
def isDigit10 (c : Char) : Bool :=
  '0' ≤ c && c ≤ '9'

/-- Numeric value of the maximal leading run of decimal digits, `none` when
that run is empty (JavaScript `NaN`). -/
def parseDigits (cs : List Char) : Option Nat :=
  match cs.takeWhile isDigit10 with
  | [] => none
  | ds => some (ds.foldl (fun a c => a * 10 + (c.toNat - 48)) 0)

/-- JavaScript `parseInt(s, 10)`: skip leading whitespace, an optional sign,
then read the maximal decimal-digit prefix; `none` models `NaN` (no digits).
Trailing non-digit characters are ignored, so `parseInt("2015年")` is `2015`
and `parseInt("12.5")` is `12`. -/
def parseIntDec (s : String) : Option Int :=
  match s.toList.dropWhile isJsSpace with
  | '-' :: rest => (parseDigits rest).map (fun n => -(n : Int))
  | '+' :: rest => (parseDigits rest).map (fun n => (n : Int))
  | cs => (parseDigits cs).map (fun n => (n : Int))

/-! ## Aggregator (`fetchPopulation` shaping logic, src/lib/api.ts 71–105) -/

/-- The fields of `feature.properties` read by `fetchPopulation`:
`N03_001` (prefecture name), `N03_007` (year), `N03_004` (population). -/
structure RawProperties where
  N03_001 : String
  N03_007 : String
  N03_004 : String
  deriving Repr, DecidableEq

/-- `yearlyPopulationMap.set(year, (yearlyPopulationMap.get(year) || 0) + value)`:
a JavaScript `Map` is insertion ordered; setting an existing key updates it
in place, a new key is appended. -/
def addToYearMap (m : List (Int × Int)) (year value : Int) : List (Int × Int) :=
  match m with
  | [] => [(year, value)]
  | (y, v) :: rest =>
    if y = year then (y, v + value) :: rest
    else (y, v) :: addToYearMap rest year value

/-- One iteration of the `json.features.forEach` loop in `fetchPopulation`:
keep the record only when `properties.N03_001 === prefName`, parse year and
value with `parseInt(_, 10)`, and skip the record when either is `NaN`. -/
def stepFeature (prefName : String) (m : List (Int × Int)) (f : RawProperties) :
    List (Int × Int) :=
  if f.N03_001 = prefName then
    match parseIntDec f.N03_007, parseIntDec f.N03_004 with
    | some year, some value => addToYearMap m year value
    | _, _ => m
  else m

/-- The full `forEach` loop: fold the features into the yearly map. -/
def buildYearMap (features : List RawProperties) (prefName : String) :
    List (Int × Int) :=
  features.foldl (stepFeature prefName) []

/-- Insertion step for `populationValues.sort((a, b) => a.year - b.year)`. -/
def insertByYear (pv : PopulationValue) : List PopulationValue → List PopulationValue
  | [] => [pv]
  | q :: qs => if pv.year ≤ q.year then pv :: q :: qs else q :: insertByYear pv qs

/-- Ascending sort by year (the `populationValues.sort` call); insertion sort
is stable and the years are pairwise distinct here, so it is extensionally
the JavaScript sort. -/
def sortByYear (l : List PopulationValue) : List PopulationValue :=
  l.foldr insertByYear []

/-- The pure aggregation core of `fetchPopulation` (src/lib/api.ts 81–105):
build the yearly sums, convert the map to `PopulationValue`s in insertion
order, and sort ascending by year. -/
def aggregatePopulation (features : List RawProperties) (prefName : String) :
    List PopulationValue :=
  sortByYear ((buildYearMap features prefName).map (fun p => ⟨p.1, p.2⟩))

/-- `fetchPopulation`'s result shape on a successfully decoded body:
`json.features` absent (`none`) yields `data: []`, otherwise the aggregation
runs; the function returns `{ prefCode, prefName, data }` and raises no
error of its own. -/
def fetchPopulationShape (prefCode : Int) (prefName : String)
    (features : Option (List RawProperties)) : PopulationData :=
  match features with
  | none => ⟨prefCode, prefName, []⟩
  | some fs => ⟨prefCode, prefName, aggregatePopulation fs prefName⟩

/-! ## `getPrefectureColor` (src/hooks/usePopulationData.ts 18–32) -/

/-- The fixed ten-color palette. -/
def colors : List String :=
  ["#E53935", "#43A047", "#1E88E5", "#FFB300", "#8E24AA",
   "#00ACC1", "#F4511E", "#6D4C41", "#546E7A", "#D81B60"]

/-- JavaScript array indexing `xs[i]` with an integer index: `undefined`
(`none`) outside `[0, length)`.  JavaScript `-0` stringifies to the key
`"0"`, and `Int` has a single zero, so the model agrees with `xs[-0]`. -/
def jsArrayGet (xs : List String) (i : Int) : Option String :=
  if h : 0 ≤ i ∧ i.toNat < xs.length then some (xs.get ⟨i.toNat, h.2⟩) else none

/-- `colors[(prefCode - 1) % colors.length]`: JavaScript `%` is the
truncated remainder (`Int.tmod`), negative for a negative dividend. -/
def getPrefectureColor (prefCode : Int) : Option String :=
  jsArrayGet colors ((prefCode - 1).tmod (colors.length : Int))

/-! ## `usePopulationData` hook state (src/hooks/usePopulationData.ts) -/

/-- The hook's mutable state: `selectedPrefs`, `populationCache` and
`isFetching` (the three `useState` maps, with JavaScript's absent-key
reading as `false` / `undefined`), plus the scheduler's bookkeeping:
`outstanding` — the in-flight `fetchPopulation` promises, as
`(prefCode, prefName)` pairs — and `fetchCalls`, the total number of
`fetchPopulation` invocations issued so far. -/
structure HookState where
  selectedPrefs : Int → Bool
  populationCache : Int → Option PopulationData
  isFetching : Int → Bool
  outstanding : List (Int × String)
  fetchCalls : Nat

/-- Hook state right after mounting: all three maps empty. -/
def initState : HookState :=
  { selectedPrefs := fun _ => false
    populationCache := fun _ => none
    isFetching := fun _ => false
    outstanding := []
    fetchCalls := 0 }

/-- The synchronous prefix of `handlePrefectureToggle(prefCode, isChecked,
prefName)` — everything that runs before the `await`:
1. optimistically set `selectedPrefs[prefCode] = isChecked`;
2. if unchecked, delete the cache entry and return (no fetch);
3. if checked: return if the cache already holds the code, return if a
   fetch is already in flight, otherwise set `isFetching[prefCode] = true`
   and call `fetchPopulation(prefCode, prefName)` (recorded in
   `outstanding` / `fetchCalls`; the settlement is a separate event). -/
def handlePrefectureToggle (s : HookState) (prefCode : Int) (isChecked : Bool)
    (prefName : String) : HookState :=
  let s1 := { s with selectedPrefs := fun c => if c = prefCode then isChecked else s.selectedPrefs c }
  if isChecked = false then
    { s1 with populationCache := fun c => if c = prefCode then none else s1.populationCache c }
  else
    match s1.populationCache prefCode with
    | some _ => s1
    | none =>
      if s1.isFetching prefCode then s1
      else
        { s1 with
          isFetching := fun c => if c = prefCode then true else s1.isFetching c
          outstanding := s1.outstanding ++ [(prefCode, prefName)]
          fetchCalls := s1.fetchCalls + 1 }

/-- Settlement of an outstanding `fetchPopulation` promise for `prefCode`
(the continuation after the `await`, including `catch` and `finally`).
`result = some data` is a fulfilled promise carrying `data`; `none` is a
rejected one.  Per the source: data with at least one point is written to
the cache; empty data is turned into a `throw`, so it and a rejection both
roll back `selectedPrefs[prefCode] = false` and leave the cache untouched;
`finally` clears `isFetching[prefCode]`.  The `catch` swallows the error,
so settlement is a total function.  A settle event with no outstanding
fetch for the code does not occur; it is modelled as a no-op. -/
def settleFetch (s : HookState) (prefCode : Int)
    (result : Option (List PopulationValue)) : HookState :=
  match s.outstanding.find? (fun p => p.1 = prefCode) with
  | none => s
  | some (_, prefName) =>
    let s1 := { s with outstanding := s.outstanding.eraseP (fun p => p.1 = prefCode) }
    match result with
    | some data =>
      if data.length > 0 then
        { s1 with
          populationCache := fun c =>
            if c = prefCode then some ⟨prefCode, prefName, data⟩ else s1.populationCache c
          isFetching := fun c => if c = prefCode then false else s1.isFetching c }
      else
        { s1 with
          selectedPrefs := fun c => if c = prefCode then false else s1.selectedPrefs c
          isFetching := fun c => if c = prefCode then false else s1.isFetching c }
    | none =>
      { s1 with
        selectedPrefs := fun c => if c = prefCode then false else s1.selectedPrefs c
        isFetching := fun c => if c = prefCode then false else s1.isFetching c }

/-- A scheduler step: either the user toggles a checkbox, or an outstanding
fetch settles. -/
inductive Event where
  | toggle (prefCode : Int) (isChecked : Bool) (prefName : String)
  | settle (prefCode : Int) (result : Option (List PopulationValue))

/-- Apply one event to the hook state. -/
def stepEv (s : HookState) : Event → HookState
  | .toggle c ch n => handlePrefectureToggle s c ch n
  | .settle c res => settleFetch s c res

/-- Run a sequence of events. -/
def run (s : HookState) (es : List Event) : HookState :=
  es.foldl stepEv s

/-- Number of outstanding fetches for a given code. -/
def outstandingCount (s : HookState) (prefCode : Int) : Nat :=
  (s.outstanding.filter (fun p => p.1 = prefCode)).length

/-- The derived `chartSeries` memo (src/hooks/usePopulationData.ts 120–148):
filter the catalog by `selectedPrefs`, look the codes up in the cache,
drop the absent ones, and build `{name, data, color}` from the cached
`PopulationData`. -/
def chartSeries (allPrefectures : List Prefecture) (s : HookState) : List ChartSeries :=
  let selectedPrefCodes :=
    (allPrefectures.filter (fun pref => s.selectedPrefs pref.prefCode)).map
      (fun pref => pref.prefCode)
  let dataForChart := selectedPrefCodes.filterMap (fun c => s.populationCache c)
  dataForChart.map (fun d =>
    { name := d.prefName
      data := d.data.map (fun item => (item.year, item.value))
      color := getPrefectureColor d.prefCode })

/-- The derived `selectedPrefCodeList` memo: catalog filtered by
`selectedPrefs`, mapped to codes. -/
def selectedPrefCodeList (allPrefectures : List Prefecture) (s : HookState) : List Int :=
  (allPrefectures.filter (fun pref => s.selectedPrefs pref.prefCode)).map
    (fun pref => pref.prefCode)

/-! ## Statement-side measures for the aggregator -/

/-- The contribution of one raw record to the year-`y` total for
`prefName`: its parsed value when the record's name matches and both
fields parse with year `y`, and `0` otherwise. -/
def contrib (prefName : String) (y : Int) (f : RawProperties) : Int :=
  if f.N03_001 = prefName then
    match parseIntDec f.N03_007, parseIntDec f.N03_004 with
    | some year, some value => if year = y then value else 0
    | _, _ => 0
  else 0

/-- A record matches `prefName` and parses with year `y` (and a parseable
value), so it keys an entry at year `y`. -/
def keyedAt (prefName : String) (y : Int) (f : RawProperties) : Bool :=
  f.N03_001 = prefName && parseIntDec f.N03_007 = some y &&
    (parseIntDec f.N03_004).isSome

/-- Association-list lookup in the yearly map. -/
def lookupYear : List (Int × Int) → Int → Option Int
  | [], _ => none
  | (y, v) :: rest, x => if y = x then some v else lookupYear rest x

/-- The `ChartSeries` entry `chartSeries` builds from one cached
`PopulationData` (the body of the final `dataForChart.map`). -/
def toChartSeries (d : PopulationData) : ChartSeries :=
  { name := d.prefName
    data := d.data.map (fun item => (item.year, item.value))
    color := getPrefectureColor d.prefCode }

/-- The per-code invariant of the hook state: at most one fetch is ever
outstanding per code, `isFetching` is set exactly while one is, and a code
being fetched has no cache entry yet. -/
def Inv (s : HookState) : Prop :=
  ∀ c : Int,
    outstandingCount s c ≤ 1 ∧
    (s.isFetching c = true ↔ outstandingCount s c = 1) ∧
    (s.isFetching c = true → s.populationCache c = none)

/-- The event is not a settlement of a fetch for `code`. -/
def noSettleFor (code : Int) : Event → Prop
  | .settle c _ => c ≠ code
  | .toggle _ _ _ => True

/-! ## Aggregator lemmas -/

theorem lookupYear_addToYearMap (m : List (Int × Int)) (year value x : Int) :
    lookupYear (addToYearMap m year value) x =
      if x = year then some ((lookupYear m x).getD 0 + value) else lookupYear m x := by
  induction m with
  | nil =>
    by_cases h : x = year
    · subst h; simp [addToYearMap, lookupYear]
    · simp [addToYearMap, lookupYear, h, Ne.symm h]
  | cons hd tl ih =>
    obtain ⟨y, v⟩ := hd
    by_cases hy : y = year
    · subst hy
      by_cases hx : x = y
      · subst hx; simp [addToYearMap, lookupYear]
      · simp [addToYearMap, lookupYear, hx, Ne.symm hx]
    · by_cases hx : y = x
      · have hxy : ¬ x = year := fun hh => hy (hx.trans hh)
        simp [addToYearMap, lookupYear, hy, hx, hxy]
      · simp [addToYearMap, lookupYear, hy, hx, ih]

theorem mem_keys_addToYearMap (m : List (Int × Int)) (year value x : Int) :
    x ∈ (addToYearMap m year value).map Prod.fst ↔
      x ∈ m.map Prod.fst ∨ x = year := by
  induction m with
  | nil => simp [addToYearMap]
  | cons hd tl ih =>
    obtain ⟨y, v⟩ := hd
    by_cases hy : y = year <;> simp [addToYearMap, hy, ih] <;> tauto

theorem nodup_keys_addToYearMap (m : List (Int × Int)) (year value : Int)
    (h : (m.map Prod.fst).Nodup) :
    ((addToYearMap m year value).map Prod.fst).Nodup := by
  induction m with
  | nil => simp [addToYearMap]
  | cons hd tl ih =>
    obtain ⟨y, v⟩ := hd
    simp only [List.map_cons, List.nodup_cons] at h
    by_cases hy : y = year
    · subst hy
      simpa [addToYearMap] using h
    · rw [show addToYearMap ((y, v) :: tl) year value =
          (y, v) :: addToYearMap tl year value from by simp [addToYearMap, hy]]
      simp only [List.map_cons, List.nodup_cons]
      refine ⟨?_, ih h.2⟩
      rw [mem_keys_addToYearMap]
      rintro (hmem | rfl)
      · exact h.1 hmem
      · exact hy rfl

theorem lookupYear_foldl_some (prefName : String) (fs : List RawProperties)
    (y : Int) :
    ∀ (m : List (Int × Int)) (v : Int), lookupYear m y = some v →
      lookupYear (fs.foldl (stepFeature prefName) m) y =
        some (v + (fs.map (contrib prefName y)).sum) := by
  induction fs with
  | nil => intro m v h; simpa using h
  | cons f fs ih =>
    intro m v h
    simp only [List.foldl_cons, List.map_cons, List.sum_cons]
    by_cases hname : f.N03_001 = prefName
    · cases hyear : parseIntDec f.N03_007 with
      | none =>
        rw [show stepFeature prefName m f = m from by simp [stepFeature, hname, hyear]]
        rw [ih m v h, show contrib prefName y f = 0 from by simp [contrib, hname, hyear]]
        ring_nf
      | some yr =>
        cases hval : parseIntDec f.N03_004 with
        | none =>
          rw [show stepFeature prefName m f = m from by
            simp [stepFeature, hname, hyear, hval]]
          rw [ih m v h, show contrib prefName y f = 0 from by
            simp [contrib, hname, hyear, hval]]
          ring_nf
        | some val =>
          rw [show stepFeature prefName m f = addToYearMap m yr val from by
            simp [stepFeature, hname, hyear, hval]]
          by_cases hyy : yr = y
          · subst hyy
            have hm : lookupYear (addToYearMap m yr val) yr = some (v + val) := by
              rw [lookupYear_addToYearMap, if_pos rfl, h]; rfl
            rw [ih _ _ hm, show contrib prefName yr f = val from by
              simp [contrib, hname, hyear, hval]]
            rw [Int.add_assoc]
          · have hm : lookupYear (addToYearMap m yr val) y = some v := by
              rw [lookupYear_addToYearMap, if_neg (fun hh => hyy hh.symm), h]
            rw [ih _ _ hm, show contrib prefName y f = 0 from by
              simp [contrib, hname, hyear, hval, hyy]]
            ring_nf
    · rw [show stepFeature prefName m f = m from by simp [stepFeature, hname]]
      rw [ih m v h, show contrib prefName y f = 0 from by simp [contrib, hname]]
      ring_nf

theorem lookupYear_stepFeature_not_keyed (prefName : String) (y : Int)
    (f : RawProperties) (m : List (Int × Int))
    (hk : keyedAt prefName y f = false) :
    lookupYear (stepFeature prefName m f) y = lookupYear m y := by
  by_cases hname : f.N03_001 = prefName
  · cases hyear : parseIntDec f.N03_007 with
    | none => simp [stepFeature, hname, hyear]
    | some yr =>
      cases hval : parseIntDec f.N03_004 with
      | none => simp [stepFeature, hname, hyear, hval]
      | some val =>
        have hyy : yr ≠ y := by
          intro h; subst h
          simp [keyedAt, hname, hyear, hval] at hk
        rw [show stepFeature prefName m f = addToYearMap m yr val from by
          simp [stepFeature, hname, hyear, hval]]
        rw [lookupYear_addToYearMap, if_neg (fun hh => hyy hh.symm)]
  · simp [stepFeature, hname]

theorem contrib_eq_zero_not_keyed (prefName : String) (y : Int)
    (f : RawProperties) (hk : keyedAt prefName y f = false) :
    contrib prefName y f = 0 := by
  by_cases hname : f.N03_001 = prefName
  · cases hyear : parseIntDec f.N03_007 with
    | none => simp [contrib, hname, hyear]
    | some yr =>
      cases hval : parseIntDec f.N03_004 with
      | none => simp [contrib, hname, hyear, hval]
      | some val =>
        have hyy : yr ≠ y := by
          intro h; subst h
          simp [keyedAt, hname, hyear, hval] at hk
        simp [contrib, hname, hyear, hval, hyy]
  · simp [contrib, hname]

theorem lookupYear_foldl_none (prefName : String) (fs : List RawProperties)
    (y : Int) :
    ∀ m : List (Int × Int), lookupYear m y = none →
      lookupYear (fs.foldl (stepFeature prefName) m) y =
        if fs.any (keyedAt prefName y) then some ((fs.map (contrib prefName y)).sum)
        else none := by
  induction fs with
  | nil => intro m h; simpa using h
  | cons f fs ih =>
    intro m h
    simp only [List.foldl_cons, List.map_cons, List.sum_cons, List.any_cons]
    by_cases hk : keyedAt prefName y f
    · have hname : f.N03_001 = prefName := by
        simp only [keyedAt, Bool.and_eq_true, decide_eq_true_eq] at hk
        exact hk.1.1
      obtain ⟨val, hval⟩ : ∃ v, parseIntDec f.N03_004 = some v := by
        simp only [keyedAt, Bool.and_eq_true, Option.isSome_iff_exists] at hk
        exact hk.2
      have hyear : parseIntDec f.N03_007 = some y := by
        simp only [keyedAt, Bool.and_eq_true, decide_eq_true_eq] at hk
        exact hk.1.2
      rw [show stepFeature prefName m f = addToYearMap m y val from by
        simp [stepFeature, hname, hyear, hval]]
      have hm : lookupYear (addToYearMap m y val) y = some val := by
        rw [lookupYear_addToYearMap, if_pos rfl, h]
        simp
      rw [lookupYear_foldl_some prefName fs y _ _ hm]
      rw [show contrib prefName y f = val from by simp [contrib, hname, hyear, hval]]
      simp [hk]
    · have hk' : keyedAt prefName y f = false := by
        simpa using hk
      have h1 : lookupYear (stepFeature prefName m f) y = none := by
        rw [lookupYear_stepFeature_not_keyed prefName y f m hk', h]
      rw [ih _ h1, contrib_eq_zero_not_keyed prefName y f hk']
      by_cases hany : fs.any (keyedAt prefName y) <;> simp [hany, hk']

theorem lookupYear_buildYearMap (features : List RawProperties) (prefName : String)
    (y : Int) :
    lookupYear (buildYearMap features prefName) y =
      if features.any (keyedAt prefName y) then
        some ((features.map (contrib prefName y)).sum)
      else none := by
  exact lookupYear_foldl_none prefName features y [] rfl

theorem nodup_keys_buildYearMap (features : List RawProperties) (prefName : String) :
    ((buildYearMap features prefName).map Prod.fst).Nodup := by
  suffices h : ∀ m : List (Int × Int), (m.map Prod.fst).Nodup →
      ((features.foldl (stepFeature prefName) m).map Prod.fst).Nodup by
    exact h [] (by simp)
  induction features with
  | nil => intro m hm; simpa using hm
  | cons f fs ih =>
    intro m hm
    simp only [List.foldl_cons]
    refine ih _ ?_
    unfold stepFeature
    by_cases hname : f.N03_001 = prefName
    · cases hyear : parseIntDec f.N03_007 with
      | none => simpa [hname, hyear] using hm
      | some yr =>
        cases hval : parseIntDec f.N03_004 with
        | none => simpa [hname, hyear, hval] using hm
        | some v => simpa [hname, hyear, hval] using nodup_keys_addToYearMap m yr v hm
    · simpa [hname] using hm

theorem lookupYear_eq_some_of_mem (m : List (Int × Int)) (y v : Int)
    (hnd : (m.map Prod.fst).Nodup) (hmem : (y, v) ∈ m) :
    lookupYear m y = some v := by
  induction m with
  | nil => simp at hmem
  | cons hd tl ih =>
    obtain ⟨y0, v0⟩ := hd
    simp only [List.map_cons, List.nodup_cons] at hnd
    rcases List.mem_cons.mp hmem with h | h
    · rw [show y0 = y from congrArg Prod.fst h.symm,
        show v0 = v from congrArg Prod.snd h.symm]
      simp [lookupYear]
    · have hy : y0 ≠ y := by
        rintro rfl
        exact hnd.1 (List.mem_map.mpr ⟨(y0, v), h, rfl⟩)
      simp [lookupYear, hy, ih hnd.2 h]

theorem mem_of_lookupYear_eq_some (m : List (Int × Int)) (y v : Int)
    (h : lookupYear m y = some v) : (y, v) ∈ m := by
  induction m with
  | nil => simp [lookupYear] at h
  | cons hd tl ih =>
    obtain ⟨y0, v0⟩ := hd
    by_cases hy : y0 = y
    · subst hy
      simp only [lookupYear, if_true, eq_self_iff_true] at h
      simp only [Option.some.injEq] at h
      subst h
      exact List.mem_cons_self _ _
    · simp only [lookupYear, if_neg hy] at h
      exact List.mem_cons_of_mem _ (ih h)

/-! ## Sorting lemmas -/

theorem insertByYear_perm (pv : PopulationValue) (l : List PopulationValue) :
    List.Perm (insertByYear pv l) (pv :: l) := by
  induction l with
  | nil => exact List.Perm.refl _
  | cons q qs ih =>
    by_cases h : pv.year ≤ q.year
    · simp [insertByYear, h]
    · simp only [insertByYear, if_neg h]
      exact (ih.cons q).trans (List.Perm.swap pv q qs)

theorem sortByYear_perm (l : List PopulationValue) : List.Perm (sortByYear l) l := by
  induction l with
  | nil => exact List.Perm.refl _
  | cons q qs ih =>
    exact (insertByYear_perm q (sortByYear qs)).trans (ih.cons q)

theorem sorted_insertByYear (pv : PopulationValue) (l : List PopulationValue)
    (h : List.Pairwise (fun a b => a.year ≤ b.year) l) :
    List.Pairwise (fun a b => a.year ≤ b.year) (insertByYear pv l) := by
  induction l with
  | nil => simp [insertByYear]
  | cons q qs ih =>
    rw [List.pairwise_cons] at h
    by_cases hle : pv.year ≤ q.year
    · simp only [insertByYear, if_pos hle]
      rw [List.pairwise_cons]
      refine ⟨?_, List.pairwise_cons.mpr h⟩
      intro b hb
      rcases List.mem_cons.mp hb with rfl | hb
      · exact hle
      · exact le_trans hle (h.1 b hb)
    · simp only [insertByYear, if_neg hle]
      rw [List.pairwise_cons]
      refine ⟨?_, ih h.2⟩
      intro b hb
      rcases List.mem_cons.mp ((insertByYear_perm pv qs).mem_iff.mp hb) with rfl | h1
      · exact le_of_lt (lt_of_not_le hle)
      · exact h.1 b h1

theorem sorted_sortByYear (l : List PopulationValue) :
    List.Pairwise (fun a b => a.year ≤ b.year) (sortByYear l) := by
  induction l with
  | nil => simp [sortByYear]
  | cons q qs ih => exact sorted_insertByYear q (sortByYear qs) ih

theorem pairwise_lt_sortByYear (l : List PopulationValue)
    (hnd : (l.map PopulationValue.year).Nodup) :
    List.Pairwise (fun a b => a.year < b.year) (sortByYear l) := by
  have hs := sorted_sortByYear l
  have hperm : List.Perm ((sortByYear l).map PopulationValue.year) (l.map PopulationValue.year) :=
    (sortByYear_perm l).map PopulationValue.year
  have hnd' : ((sortByYear l).map PopulationValue.year).Nodup :=
    hperm.nodup_iff.mpr hnd
  have hne : List.Pairwise (fun a b => a.year ≠ b.year) (sortByYear l) :=
    List.pairwise_map.mp hnd'
  exact (hs.and hne).imp (fun h => lt_of_le_of_ne h.1 h.2)

/-! ## Aggregator characterisation -/

theorem keyedAt_eq_true_iff (prefName : String) (y : Int) (f : RawProperties) :
    keyedAt prefName y f = true ↔
      f.N03_001 = prefName ∧ parseIntDec f.N03_007 = some y ∧
        (parseIntDec f.N03_004).isSome = true := by
  simp [keyedAt, Bool.and_eq_true, decide_eq_true_eq, and_assoc]

theorem nodup_years_mapped (features : List RawProperties) (prefName : String) :
    (((buildYearMap features prefName).map
        (fun p => (⟨p.1, p.2⟩ : PopulationValue))).map PopulationValue.year).Nodup := by
  rw [List.map_map]
  exact nodup_keys_buildYearMap features prefName

theorem mem_aggregatePopulation (features : List RawProperties) (prefName : String)
    (pv : PopulationValue) :
    pv ∈ aggregatePopulation features prefName ↔
      lookupYear (buildYearMap features prefName) pv.year = some pv.value := by
  unfold aggregatePopulation
  rw [(sortByYear_perm _).mem_iff]
  constructor
  · intro h
    obtain ⟨p, hp, hpv⟩ := List.mem_map.mp h
    have hy : p.1 = pv.year := congrArg PopulationValue.year hpv
    have hv : p.2 = pv.value := congrArg PopulationValue.value hpv
    rw [← hy, ← hv]
    exact lookupYear_eq_some_of_mem _ _ _ (nodup_keys_buildYearMap features prefName)
      (by rwa [show (p.1, p.2) = p from rfl])
  · intro h
    exact List.mem_map.mpr ⟨(pv.year, pv.value), mem_of_lookupYear_eq_some _ _ _ h, rfl⟩

/-- C1 — Aggregation value correctness: the aggregator's output has a point
for year `y` exactly when some record whose `N03_001` field equals the
target name has `N03_007` and `N03_004` both parsing as integers with year
`y`; that point's value is the sum over all records of their
`contrib`ution — the parsed value when the record matches the name and the
year, `0` otherwise (so non-matching records contribute nothing). -/
theorem aggregate_value_correct (features : List RawProperties) (prefName : String)
    (y : Int) :
    ((∃ pv ∈ aggregatePopulation features prefName, pv.year = y) ↔
      ∃ f ∈ features, f.N03_001 = prefName ∧ parseIntDec f.N03_007 = some y ∧
        (parseIntDec f.N03_004).isSome = true) ∧
    ∀ pv ∈ aggregatePopulation features prefName,
      pv.value = ((features.map (contrib prefName pv.year)).sum) := by
  constructor
  · constructor
    · rintro ⟨pv, hpv, rfl⟩
      have h := (mem_aggregatePopulation features prefName pv).mp hpv
      rw [lookupYear_buildYearMap] at h
      by_cases hany : features.any (keyedAt prefName pv.year)
      · obtain ⟨f, hf, hkf⟩ := List.any_eq_true.mp hany
        exact ⟨f, hf, (keyedAt_eq_true_iff prefName pv.year f).mp hkf⟩
      · rw [if_neg hany] at h
        exact absurd h (by simp)
    · rintro ⟨f, hf, hkey⟩
      have hany : features.any (keyedAt prefName y) = true :=
        List.any_eq_true.mpr ⟨f, hf, (keyedAt_eq_true_iff prefName y f).mpr hkey⟩
      refine ⟨⟨y, (features.map (contrib prefName y)).sum⟩, ?_, rfl⟩
      rw [mem_aggregatePopulation, lookupYear_buildYearMap, if_pos hany]
  · intro pv hpv
    have h := (mem_aggregatePopulation features prefName pv).mp hpv
    rw [lookupYear_buildYearMap] at h
    by_cases hany : features.any (keyedAt prefName pv.year)
    · rw [if_pos hany] at h
      exact (Option.some.injEq .. ▸ h :).symm
    · rw [if_neg hany] at h
      exact absurd h (by simp)

/-- C1 witness: the spec's additive-merge example — records
`{name:"X", year:2000, value:100}` and `{name:"X", year:2000, value:50}`
aggregate for `"X"` to a single point whose value is the contribution sum. -/
theorem aggregate_value_correct_witness :
    (⟨2000, 150⟩ : PopulationValue).value =
      (([⟨"X", "2000", "100"⟩, ⟨"X", "2000", "50"⟩] : List RawProperties).map
        (contrib "X" 2000)).sum :=
  (aggregate_value_correct [⟨"X", "2000", "100"⟩, ⟨"X", "2000", "50"⟩] "X" 2000).2
    ⟨2000, 150⟩ (by decide)

/-- C6 — Sortedness invariant: for every input record sequence the output's
years are strictly ascending (hence contain no duplicate year). -/
theorem aggregate_sorted (features : List RawProperties) (prefName : String) :
    List.Pairwise (fun a b => a.year < b.year)
      (aggregatePopulation features prefName) :=
  pairwise_lt_sortByYear _ (nodup_years_mapped features prefName)

theorem foldl_stepFeature_eq_self (prefName : String) (fs : List RawProperties)
    (m : List (Int × Int))
    (h : ∀ f ∈ fs, f.N03_001 = prefName →
      parseIntDec f.N03_007 = none ∨ parseIntDec f.N03_004 = none) :
    fs.foldl (stepFeature prefName) m = m := by
  induction fs generalizing m with
  | nil => rfl
  | cons f fs ih =>
    have hstep : stepFeature prefName m f = m := by
      by_cases hname : f.N03_001 = prefName
      · rcases h f (List.mem_cons_self f fs) hname with hh | hh
        · simp [stepFeature, hname, hh]
        · cases hyear : parseIntDec f.N03_007 <;> simp [stepFeature, hname, hh, hyear]
      · simp [stepFeature, hname]
    rw [List.foldl_cons, hstep]
    exact ih m (fun g hg => h g (List.mem_cons_of_mem f hg))

/-- C7 — Malformed-record tolerance: the aggregation is a total function
(no error is ever raised — the embedding is a plain Lean function); when
every record matching the target name fails to parse (in particular, when
no record matches at all) the result is the empty sequence; and a record
whose name does not match or whose year or value fails to parse is
silently dropped — removing it leaves the aggregation unchanged. -/
theorem aggregate_tolerant (features : List RawProperties) (prefName : String) :
    ((∀ f ∈ features, f.N03_001 = prefName →
        parseIntDec f.N03_007 = none ∨ parseIntDec f.N03_004 = none) →
      aggregatePopulation features prefName = []) ∧
    ∀ f : RawProperties,
      (f.N03_001 ≠ prefName ∨ parseIntDec f.N03_007 = none ∨
        parseIntDec f.N03_004 = none) →
      aggregatePopulation (f :: features) prefName =
        aggregatePopulation features prefName := by
  constructor
  · intro h
    unfold aggregatePopulation buildYearMap
    rw [foldl_stepFeature_eq_self prefName features [] h]
    rfl
  · intro f hf
    unfold aggregatePopulation buildYearMap
    have hstep : stepFeature prefName [] f = [] := by
      rcases hf with hh | hh | hh
      · simp [stepFeature, hh]
      · by_cases hname : f.N03_001 = prefName <;> simp [stepFeature, hname, hh]
      · by_cases hname : f.N03_001 = prefName
        · cases hyear : parseIntDec f.N03_007 <;> simp [stepFeature, hname, hh, hyear]
        · simp [stepFeature, hname]
    rw [List.foldl_cons, hstep]

/-- C7 witness: a single matching record with unparseable year aggregates
to `[]`, and a record with a non-matching name is dropped. -/
theorem aggregate_tolerant_witness :
    aggregatePopulation [⟨"X", "abc", "10"⟩] "X" = [] ∧
    aggregatePopulation [⟨"Y", "2000", "1"⟩] "X" = aggregatePopulation [] "X" :=
  ⟨(aggregate_tolerant [⟨"X", "abc", "10"⟩] "X").1 (by decide),
   (aggregate_tolerant [] "X").2 ⟨"Y", "2000", "1"⟩ (by decide)⟩

/-- C8 — prefix integer parsing: `parseInt(_, 10)` keeps the integer prefix
of a field, so year `"2015年"` parses as `2015` and value `"12.5"` as `12`;
such a record is kept, not dropped, and contributes its integer prefixes;
only a field with no leading digits (after optional whitespace and sign)
fails to parse. -/
theorem parseInt_prefix_semantics :
    parseIntDec "2015年" = some 2015 ∧ parseIntDec "12.5" = some 12 ∧
    parseIntDec "abc" = none ∧
    aggregatePopulation [⟨"東京都", "2015年", "12.5"⟩] "東京都" =
      [⟨2015, 12⟩] := by
  refine ⟨?_, ?_, ?_, ?_⟩ <;> decide

/-! ## `getPrefectureColor` theorems -/

/-- C10 counterexample: the claim says that for `code ≤ 0` the JavaScript
remainder is negative and the array lookup yields no palette color — but at
`code = -9` the remainder `(-10) % 10` is `-0` and `colors[-0]` is
`colors[0]`, a genuine palette color. -/
theorem color_nonpositive_claim_false :
    ((-9 : Int) ≤ 0) ∧ getPrefectureColor (-9) = some "#E53935" := by
  exact ⟨by decide, by decide⟩

/-- C10 (amended): for `code ≥ 1`, `getPrefectureColor code` is the palette
entry at index `(code - 1) mod 10`; for `code ≤ 0` the truncated remainder
is `≤ 0`: when `10 ∤ (code - 1)` it is negative and the lookup yields
`undefined` (`none`), but when `10 ∣ (code - 1)` (for example `code = -9`)
it is `0` and the lookup yields the first palette color.  The stated
cycling behaviour therefore still requires 1-based codes. -/
theorem getPrefectureColor_cases (code : Int) :
    (1 ≤ code → getPrefectureColor code = colors.get? ((code - 1).toNat % 10)) ∧
    (code ≤ 0 → getPrefectureColor code =
      (if (10 : Int) ∣ (code - 1) then some "#E53935" else none)) := by
  constructor
  · intro h1
    obtain ⟨n, rfl⟩ : ∃ n : Nat, code = (n : Int) + 1 :=
      ⟨(code - 1).toNat, by omega⟩
    have h2 : (n : Int) + 1 - 1 = (n : Int) := by ring
    have h3 : ((n : Int)).tmod ((10 : Nat) : Int) = ((n % 10 : Nat) : Int) := rfl
    rw [getPrefectureColor, h2, show (colors.length : Int) = ((10 : Nat) : Int) from rfl, h3]
    have hmod : n % 10 < 10 := Nat.mod_lt n (by norm_num)
    have hb : (((n % 10 : Nat) : Int)).toNat < colors.length := by
      have hlen : colors.length = 10 := rfl
      omega
    rw [jsArrayGet, dif_pos ⟨Int.natCast_nonneg _, hb⟩]
    have hnn : ((n : Int)).toNat = n := by omega
    have hmm : (((n % 10 : Nat) : Int)).toNat = n % 10 := by omega
    rw [hnn, List.get?_eq_get (show n % 10 < colors.length from by
      have hlen : colors.length = 10 := rfl
      omega)]
    exact congrArg (fun i => some (colors.get i)) (Fin.ext hmm)
  · intro h0
    cases code with
    | ofNat k =>
      have h0' : (k : Int) ≤ 0 := h0
      have hk : k = 0 := by omega
      subst hk
      decide
    | negSucc k =>
      have he : Int.negSucc k - 1 = Int.negSucc (k + 1) := by
        rw [Int.negSucc_eq, Int.negSucc_eq]
        push_cast
        ring
      rw [getPrefectureColor, he]
      have ht : (Int.negSucc (k + 1)).tmod (colors.length : Int) =
          -(((k + 2) % 10 : Nat) : Int) := rfl
      rw [ht]
      have hcast : Int.negSucc (k + 1) = -((k + 2 : Nat) : Int) := by
        rw [Int.negSucc_eq]
        push_cast
        ring
      by_cases hd : (k + 2) % 10 = 0
      · have hdvd : (10 : Int) ∣ Int.negSucc (k + 1) := by
          rw [hcast, Int.dvd_neg]
          exact_mod_cast Nat.dvd_of_mod_eq_zero hd
        rw [if_pos hdvd, hd]
        decide
      · have hlt : 0 < (k + 2) % 10 := Nat.pos_of_ne_zero hd
        have hneg : ¬ (0 ≤ -(((k + 2) % 10 : Nat) : Int) ∧
            (-(((k + 2) % 10 : Nat) : Int)).toNat < colors.length) := by
          rintro ⟨ha, -⟩
          omega
        rw [jsArrayGet, dif_neg hneg]
        have hndvd : ¬ (10 : Int) ∣ Int.negSucc (k + 1) := by
          rw [hcast, Int.dvd_neg]
          intro hdvd
          have h10 : (10 : Nat) ∣ (k + 2) := by exact_mod_cast hdvd
          exact hd (by omega)
        rw [if_neg hndvd]

/-- C10 witness: the amended statement evaluated at code 11 (positive,
cycles back to the first color) and code 0 (non-positive, remainder `-1`,
lookup undefined). -/
theorem getPrefectureColor_cases_witness :
    getPrefectureColor 11 = colors.get? (((11 : Int) - 1).toNat % 10) ∧
    getPrefectureColor 0 =
      (if (10 : Int) ∣ ((0 : Int) - 1) then some "#E53935" else none) :=
  ⟨(getPrefectureColor_cases 11).1 (by decide),
   (getPrefectureColor_cases 0).2 (by decide)⟩

/-! ## Hook state machine: shape lemmas -/

theorem toggle_off_eq (s : HookState) (code : Int) (name : String) :
    handlePrefectureToggle s code false name =
      { s with
        selectedPrefs := fun c => if c = code then false else s.selectedPrefs c
        populationCache := fun c => if c = code then none else s.populationCache c } := by
  rfl

theorem toggle_on_cache_hit_eq (s : HookState) (code : Int) (name : String)
    (d : PopulationData) (hc : s.populationCache code = some d) :
    handlePrefectureToggle s code true name =
      { s with selectedPrefs := fun c => if c = code then true else s.selectedPrefs c } := by
  unfold handlePrefectureToggle
  simp only [Bool.true_eq_false]
  rw [hc]
  simp

theorem toggle_on_fetching_eq (s : HookState) (code : Int) (name : String)
    (hc : s.populationCache code = none) (hf : s.isFetching code = true) :
    handlePrefectureToggle s code true name =
      { s with selectedPrefs := fun c => if c = code then true else s.selectedPrefs c } := by
  unfold handlePrefectureToggle
  simp only [Bool.true_eq_false]
  rw [hc, hf]
  simp

theorem toggle_on_starts_fetch_eq (s : HookState) (code : Int) (name : String)
    (hc : s.populationCache code = none) (hf : s.isFetching code = false) :
    handlePrefectureToggle s code true name =
      { s with
        selectedPrefs := fun c => if c = code then true else s.selectedPrefs c
        isFetching := fun c => if c = code then true else s.isFetching c
        outstanding := s.outstanding ++ [(code, name)]
        fetchCalls := s.fetchCalls + 1 } := by
  unfold handlePrefectureToggle
  simp only [Bool.true_eq_false]
  rw [hc, hf]
  simp

theorem settle_none_eq (s : HookState) (code : Int)
    (res : Option (List PopulationValue))
    (h : s.outstanding.find? (fun p => p.1 = code) = none) :
    settleFetch s code res = s := by
  unfold settleFetch
  rw [h]

theorem settle_rollback_eq (s : HookState) (code : Int) (pr : Int × String)
    (res : Option (List PopulationValue))
    (h : s.outstanding.find? (fun p => p.1 = code) = some pr)
    (hres : res = none ∨ res = some []) :
    settleFetch s code res =
      { s with
        outstanding := s.outstanding.eraseP (fun p => p.1 = code)
        selectedPrefs := fun c => if c = code then false else s.selectedPrefs c
        isFetching := fun c => if c = code then false else s.isFetching c } := by
  unfold settleFetch
  rw [h]
  obtain ⟨a, b⟩ := pr
  rcases hres with rfl | rfl <;> rfl

theorem settle_success_eq (s : HookState) (code : Int) (pr : Int × String)
    (data : List PopulationValue)
    (h : s.outstanding.find? (fun p => p.1 = code) = some pr)
    (hd : 0 < data.length) :
    settleFetch s code (some data) =
      { s with
        outstanding := s.outstanding.eraseP (fun p => p.1 = code)
        populationCache := fun c =>
          if c = code then some ⟨code, pr.2, data⟩ else s.populationCache c
        isFetching := fun c => if c = code then false else s.isFetching c } := by
  unfold settleFetch
  rw [h]
  obtain ⟨a, b⟩ := pr
  simp only [if_pos hd]

/-! ## Counting outstanding fetches -/

theorem find?_isSome_iff_count_pos (l : List (Int × String)) (code : Int) :
    (l.find? (fun p => p.1 = code)).isSome = true ↔
      1 ≤ (l.filter (fun p => p.1 = code)).length := by
  induction l with
  | nil => simp
  | cons hd tl ih =>
    by_cases hh : hd.1 = code <;>
      simp [List.find?_cons, List.filter_cons, hh, ih]

theorem filter_eraseP_ne (l : List (Int × String)) (code c : Int) (hne : c ≠ code) :
    ((l.eraseP (fun p => p.1 = code)).filter (fun p => p.1 = c)) =
      l.filter (fun p => p.1 = c) := by
  induction l with
  | nil => rfl
  | cons hd tl ih =>
    by_cases hh : hd.1 = code
    · have h1 : (hd :: tl).eraseP (fun p => p.1 = code) = tl :=
        List.eraseP_cons_of_pos (by simp [hh])
      have h2 : ¬ hd.1 = c := fun hhh => hne (hhh.symm.trans hh)
      rw [h1, List.filter_cons, if_neg (by simp [h2])]
    · have h1 : (hd :: tl).eraseP (fun p => p.1 = code) =
          hd :: tl.eraseP (fun p => p.1 = code) :=
        List.eraseP_cons_of_neg (by simp [hh])
      rw [h1, List.filter_cons, List.filter_cons]
      by_cases hc : hd.1 = c <;> simp [hc, ih]

theorem count_eraseP_self (l : List (Int × String)) (code : Int)
    (h : (l.find? (fun p => p.1 = code)).isSome = true) :
    ((l.eraseP (fun p => p.1 = code)).filter (fun p => p.1 = code)).length + 1 =
      (l.filter (fun p => p.1 = code)).length := by
  induction l with
  | nil => simp at h
  | cons hd tl ih =>
    by_cases hh : hd.1 = code
    · have h1 : (hd :: tl).eraseP (fun p => p.1 = code) = tl :=
        List.eraseP_cons_of_pos (by simp [hh])
      rw [h1, List.filter_cons, if_pos (by simp [hh])]
      simp
    · have h1 : (hd :: tl).eraseP (fun p => p.1 = code) =
          hd :: tl.eraseP (fun p => p.1 = code) :=
        List.eraseP_cons_of_neg (by simp [hh])
      rw [h1, List.filter_cons, List.filter_cons, if_neg (by simp [hh]),
        if_neg (by simp [hh])]
      apply ih
      simpa [List.find?_cons, hh] using h

theorem count_append_self (l : List (Int × String)) (code : Int) (name : String) :
    ((l ++ [(code, name)]).filter (fun p => p.1 = code)).length =
      (l.filter (fun p => p.1 = code)).length + 1 := by
  simp [List.filter_append]

theorem count_append_ne (l : List (Int × String)) (code c : Int) (name : String)
    (hne : c ≠ code) :
    ((l ++ [(code, name)]).filter (fun p => p.1 = c)).length =
      (l.filter (fun p => p.1 = c)).length := by
  have h2 : ¬ code = c := fun hhh => hne hhh.symm
  simp [List.filter_append, h2]

/-! ## Invariant preservation -/

theorem inv_initState : Inv initState := by
  intro c
  refine ⟨by simp [outstandingCount, initState], by simp [outstandingCount, initState], ?_⟩
  intro h
  simp [initState] at h

theorem inv_toggle (s : HookState) (code : Int) (ch : Bool) (name : String)
    (h : Inv s) : Inv (handlePrefectureToggle s code ch name) := by
  cases ch with
  | false =>
    rw [toggle_off_eq]
    intro c
    obtain ⟨h1, h2, h3⟩ := h c
    refine ⟨h1, h2, ?_⟩
    intro hf
    by_cases hc : c = code
    · simp [hc]
    · simpa [hc] using h3 hf
  | true =>
    cases hcache : s.populationCache code with
    | some d =>
      rw [toggle_on_cache_hit_eq s code name d hcache]
      exact fun c => h c
    | none =>
      cases hf : s.isFetching code with
      | true =>
        rw [toggle_on_fetching_eq s code name hcache hf]
        exact fun c => h c
      | false =>
        rw [toggle_on_starts_fetch_eq s code name hcache hf]
        intro c
        obtain ⟨h1, h2, h3⟩ := h c
        by_cases hc : c = code
        · subst hc
          have hcount : outstandingCount s c = 0 := by
            rcases Nat.lt_or_ge (outstandingCount s c) 1 with hlt | hge
            · omega
            · exact absurd (h2.mpr (by omega)) (by simp [hf])
          refine ⟨?_, ?_, ?_⟩
          · simp only [outstandingCount] at hcount ⊢
            rw [count_append_self]
            omega
          · simp only [outstandingCount] at hcount ⊢
            rw [count_append_self]
            simp [hcount]
          · intro _
            simpa using hcache
        · refine ⟨?_, ?_, ?_⟩
          · simp only [outstandingCount] at h1 ⊢
            rw [count_append_ne _ _ _ _ hc]
            exact h1
          · simp only [outstandingCount] at h2 ⊢
            rw [count_append_ne _ _ _ _ hc]
            simpa [hc] using h2
          · intro hfc
            simp only [if_neg hc] at hfc
            simpa using h3 hfc

theorem inv_settle (s : HookState) (code : Int)
    (res : Option (List PopulationValue)) (h : Inv s) :
    Inv (settleFetch s code res) := by
  cases hfind : s.outstanding.find? (fun p => p.1 = code) with
  | none => rw [settle_none_eq s code res hfind]; exact h
  | some pr =>
    have hsome : (s.outstanding.find? (fun p => p.1 = code)).isSome = true := by
      rw [hfind]; rfl
    have hpos : 1 ≤ outstandingCount s code :=
      (find?_isSome_iff_count_pos _ _).mp hsome
    have hone : outstandingCount s code = 1 := le_antisymm (h code).1 hpos
    have herase : ((s.outstanding.eraseP (fun p => p.1 = code)).filter
        (fun p => p.1 = code)).length = 0 := by
      have := count_eraseP_self s.outstanding code hsome
      simp only [outstandingCount] at hone
      omega
    have hmain : ∀ t : HookState,
        t.outstanding = s.outstanding.eraseP (fun p => p.1 = code) →
        t.isFetching = (fun c => if c = code then false else s.isFetching c) →
        (∀ c, c ≠ code → t.populationCache c = s.populationCache c) →
        Inv t := by
      intro t hout hfetch hcachene c
      by_cases hc : c = code
      · subst hc
        refine ⟨?_, ?_, ?_⟩
        · simp [outstandingCount, hout, herase]
        · simp [outstandingCount, hout, herase, hfetch]
        · intro hft
          rw [hfetch] at hft
          simp at hft
      · have hcnt : outstandingCount t c = outstandingCount s c := by
          simp [outstandingCount, hout, filter_eraseP_ne _ _ _ hc]
        obtain ⟨h1, h2, h3⟩ := h c
        refine ⟨hcnt ▸ h1, ?_, ?_⟩
        · rw [hfetch]
          simpa [hc, hcnt] using h2
        · intro hft
          rw [hfetch] at hft
          simp only [if_neg hc] at hft
          rw [hcachene c hc]
          exact h3 hft
    cases res with
    | none =>
      rw [settle_rollback_eq s code pr none hfind (Or.inl rfl)]
      exact hmain _ rfl rfl (fun c hc => by simp [hc])
    | some data =>
      cases hdata : data with
      | nil =>
        rw [settle_rollback_eq s code pr (some []) hfind (Or.inr rfl)]
        exact hmain _ rfl rfl (fun c hc => by simp [hc])
      | cons q qs =>
        rw [settle_success_eq s code pr (q :: qs) hfind (by simp)]
        exact hmain _ rfl rfl (fun c hc => by simp [hc])

theorem inv_step (s : HookState) (e : Event) (h : Inv s) : Inv (stepEv s e) := by
  cases e with
  | toggle c ch n => exact inv_toggle s c ch n h
  | settle c res => exact inv_settle s c res h

theorem inv_run (s : HookState) (es : List Event) (h : Inv s) : Inv (run s es) := by
  induction es generalizing s with
  | nil => exact h
  | cons e es ih => exact ih (stepEv s e) (inv_step s e h)

theorem inv_reachable (es : List Event) : Inv (run initState es) :=
  inv_run initState es inv_initState

/-! ## Fetch-tracking helper lemmas -/

theorem toggle_started_fetch (s : HookState) (code : Int) (name : String)
    (h : (handlePrefectureToggle s code true name).fetchCalls = s.fetchCalls + 1) :
    s.populationCache code = none ∧ s.isFetching code = false := by
  cases hc : s.populationCache code with
  | some d =>
    rw [toggle_on_cache_hit_eq s code name d hc] at h
    exact absurd h (by simp)
  | none =>
    cases hf : s.isFetching code with
    | true =>
      rw [toggle_on_fetching_eq s code name hc hf] at h
      exact absurd h (by simp)
    | false => exact ⟨rfl, rfl⟩

theorem toggle_isFetching_mono (s : HookState) (code2 : Int) (ch : Bool)
    (name : String) (code : Int) (h : s.isFetching code = true) :
    (handlePrefectureToggle s code2 ch name).isFetching code = true := by
  cases ch with
  | false =>
    rw [toggle_off_eq]
    exact h
  | true =>
    cases hc : s.populationCache code2 with
    | some d =>
      rw [toggle_on_cache_hit_eq s code2 name d hc]
      exact h
    | none =>
      cases hf : s.isFetching code2 with
      | true =>
        rw [toggle_on_fetching_eq s code2 name hc hf]
        exact h
      | false =>
        rw [toggle_on_starts_fetch_eq s code2 name hc hf]
        by_cases hcc : code = code2 <;> simp [hcc, h]

theorem settle_isFetching_other (s : HookState) (code2 : Int)
    (res : Option (List PopulationValue)) (code : Int) (hne : code2 ≠ code) :
    (settleFetch s code2 res).isFetching code = s.isFetching code := by
  have hcc : ¬ code = code2 := fun hh => hne hh.symm
  cases hfind : s.outstanding.find? (fun p => p.1 = code2) with
  | none => rw [settle_none_eq s code2 res hfind]
  | some pr =>
    cases res with
    | none =>
      rw [settle_rollback_eq s code2 pr none hfind (Or.inl rfl)]
      simp [hcc]
    | some data =>
      cases data with
      | nil =>
        rw [settle_rollback_eq s code2 pr (some []) hfind (Or.inr rfl)]
        simp [hcc]
      | cons q qs =>
        rw [settle_success_eq s code2 pr (q :: qs) hfind (by simp)]
        simp [hcc]

theorem isFetching_stays (code : Int) (es : List Event) :
    ∀ s : HookState, s.isFetching code = true →
      (∀ e ∈ es, noSettleFor code e) → (run s es).isFetching code = true := by
  induction es with
  | nil => exact fun s h _ => h
  | cons e es ih =>
    intro s h hns
    have hrest : ∀ e' ∈ es, noSettleFor code e' :=
      fun e' h' => hns e' (List.mem_cons_of_mem e h')
    cases e with
    | toggle c2 ch n =>
      exact ih _ (toggle_isFetching_mono s c2 ch n code h) hrest
    | settle c2 res =>
      have hne : c2 ≠ code := hns _ (List.mem_cons_self _ _)
      refine ih _ ?_ hrest
      rw [show stepEv s (Event.settle c2 res) = settleFetch s c2 res from rfl,
        settle_isFetching_other s c2 res code hne]
      exact h

/-! ## `chartSeries` characterisation -/

theorem chartSeries_unfold (l : List Prefecture) (s : HookState) :
    chartSeries l s =
      (((l.filter (fun pref => s.selectedPrefs pref.prefCode)).map
        (fun pref => pref.prefCode)).filterMap
          (fun c => s.populationCache c)).map toChartSeries := rfl

theorem chartSeries_eq_filterMap (l : List Prefecture) (s : HookState) :
    chartSeries l s = l.filterMap (fun pref =>
      if s.selectedPrefs pref.prefCode = true then
        (s.populationCache pref.prefCode).map toChartSeries
      else none) := by
  rw [chartSeries_unfold]
  induction l with
  | nil => rfl
  | cons p ps ih =>
    rw [List.filter_cons, List.filterMap_cons]
    by_cases hsel : s.selectedPrefs p.prefCode = true
    · rw [if_pos (by simp [hsel]), List.map_cons, List.filterMap_cons, if_pos hsel]
      cases hc : s.populationCache p.prefCode with
      | none => simpa [hc] using ih
      | some d => simpa [hc] using ih
    · rw [if_neg (by simp [hsel]), if_neg hsel]
      exact ih

theorem chartSeries_drop_uncached (l : List Prefecture) (s : HookState) (code : Int)
    (h : s.populationCache code = none) :
    chartSeries l s = chartSeries (l.filter (fun p => p.prefCode ≠ code)) s := by
  rw [chartSeries_eq_filterMap, chartSeries_eq_filterMap]
  induction l with
  | nil => rfl
  | cons p ps ih =>
    simp only [List.filterMap_cons, List.filter_cons]
    by_cases hp : p.prefCode = code
    · have hcache : s.populationCache p.prefCode = none := by rw [hp]; exact h
      rw [if_neg (show ¬ (decide (p.prefCode ≠ code) = true) from by simp [hp])]
      by_cases hsel : s.selectedPrefs p.prefCode = true <;> simp [hsel, hcache, ih]
    · rw [if_pos (show decide (p.prefCode ≠ code) = true from by simp [hp])]
      simp only [List.filterMap_cons]
      by_cases hsel : s.selectedPrefs p.prefCode = true
      · cases hc2 : s.populationCache p.prefCode <;> simp [hsel, hc2, ih]
      · simp [hsel, ih]

/-! ## Hook claims -/

/-- C2 — Rollback on failure: whenever a toggle-on actually starts a fetch
(its `fetchCalls` counter increments), and — after any further events that
do not settle this code's fetch — the fetch settles rejected (`none`) or
fulfilled with zero points (`some []`), the post-settlement state has
`selectedPrefs[code] = false`, no cache entry for `code`, and
`isFetching[code] = false`.  No error propagates out of the toggle:
`settleFetch` is a total function (the `catch` swallows the error). -/
theorem rollback_on_failure (es1 : List Event) (code : Int) (name : String)
    (es2 : List Event) (res : Option (List PopulationValue))
    (hstart : (handlePrefectureToggle (run initState es1) code true name).fetchCalls =
      (run initState es1).fetchCalls + 1)
    (hns : ∀ e ∈ es2, noSettleFor code e)
    (hres : res = none ∨ res = some []) :
    (settleFetch (run (handlePrefectureToggle (run initState es1) code true name) es2)
        code res).selectedPrefs code = false ∧
    (settleFetch (run (handlePrefectureToggle (run initState es1) code true name) es2)
        code res).populationCache code = none ∧
    (settleFetch (run (handlePrefectureToggle (run initState es1) code true name) es2)
        code res).isFetching code = false := by
  obtain ⟨hc, hf⟩ := toggle_started_fetch _ code name hstart
  have hinv0 : Inv (run initState es1) := inv_reachable es1
  have hinv1 : Inv (handlePrefectureToggle (run initState es1) code true name) :=
    inv_toggle _ code true name hinv0
  have hf1 : (handlePrefectureToggle (run initState es1) code true name).isFetching
      code = true := by
    rw [toggle_on_starts_fetch_eq _ code name hc hf]
    simp
  have hinv2 : Inv (run (handlePrefectureToggle (run initState es1) code true name) es2) :=
    inv_run _ es2 hinv1
  have hf2 : (run (handlePrefectureToggle (run initState es1) code true name)
      es2).isFetching code = true :=
    isFetching_stays code es2 _ hf1 hns
  have hcount := ((hinv2 code).2.1).mp hf2
  have hsome : ((run (handlePrefectureToggle (run initState es1) code true name)
      es2).outstanding.find? (fun p => p.1 = code)).isSome = true :=
    (find?_isSome_iff_count_pos _ _).mpr (by
      simp only [outstandingCount] at hcount
      omega)
  obtain ⟨pr, hfind⟩ := Option.isSome_iff_exists.mp hsome
  have hcache2 : (run (handlePrefectureToggle (run initState es1) code true name)
      es2).populationCache code = none := (hinv2 code).2.2 hf2
  rw [settle_rollback_eq _ code pr res hfind hres]
  exact ⟨by simp, hcache2, by simp⟩

/-- C2 witness: a single toggle-on from the initial state whose fetch is
rejected rolls the code back. -/
theorem rollback_on_failure_witness :
    (settleFetch (run (handlePrefectureToggle (run initState []) 13 true "東京都") [])
        13 none).selectedPrefs 13 = false ∧
    (settleFetch (run (handlePrefectureToggle (run initState []) 13 true "東京都") [])
        13 none).populationCache 13 = none ∧
    (settleFetch (run (handlePrefectureToggle (run initState []) 13 true "東京都") [])
        13 none).isFetching 13 = false :=
  rollback_on_failure [] 13 "東京都" [] none (by decide) (by simp) (Or.inl rfl)

/-- C3 — In-flight fetch deduplication: on every reachable state, at most
one fetch is outstanding per code; and from any reachable state where a
code is uncached and not yet fetching, two consecutive toggles-on for that
code issue exactly one fetch call in total (the second is skipped because
`isFetching[code]` is already `true`). -/
theorem inflight_dedup :
    (∀ (es : List Event) (code : Int),
      outstandingCount (run initState es) code ≤ 1) ∧
    (∀ (es : List Event) (code : Int) (name1 name2 : String),
      (run initState es).populationCache code = none →
      (run initState es).isFetching code = false →
      (run (run initState es)
          [Event.toggle code true name1, Event.toggle code true name2]).fetchCalls =
        (run initState es).fetchCalls + 1) := by
  constructor
  · exact fun es code => (inv_reachable es code).1
  · intro es code n1 n2 hc hf
    show (handlePrefectureToggle (handlePrefectureToggle (run initState es) code true n1)
      code true n2).fetchCalls = (run initState es).fetchCalls + 1
    rw [toggle_on_starts_fetch_eq _ code n1 hc hf]
    rw [toggle_on_fetching_eq
      { selectedPrefs := fun c => if c = code then true else (run initState es).selectedPrefs c
        populationCache := (run initState es).populationCache
        isFetching := fun c => if c = code then true else (run initState es).isFetching c
        outstanding := (run initState es).outstanding ++ [(code, n1)]
        fetchCalls := (run initState es).fetchCalls + 1 } code n2 hc (by simp)]

/-- C3 witness: two consecutive toggles-on of code 13 from the initial
state issue exactly one fetch. -/
theorem inflight_dedup_witness :
    (run (run initState [])
        [Event.toggle 13 true "東京都", Event.toggle 13 true "東京都"]).fetchCalls =
      (run initState []).fetchCalls + 1 :=
  inflight_dedup.2 [] 13 "東京都" "東京都" (by decide) (by decide)

/-- C4 — Eager eviction on deselect: toggling a code off synchronously (in
the toggle step itself, before any settlement event) sets
`selectedPrefs[code] = false`, deletes the cache entry, issues no fetch
(`fetchCalls` and `outstanding` unchanged), and the code's series is absent
from `chartSeries` — the output equals that of a catalog from which the
code has been removed.  This holds for every state, in particular with a
fetch for that code still in flight. -/
theorem eager_eviction (s : HookState) (code : Int) (name : String)
    (allPrefectures : List Prefecture) :
    (handlePrefectureToggle s code false name).selectedPrefs code = false ∧
    (handlePrefectureToggle s code false name).populationCache code = none ∧
    (handlePrefectureToggle s code false name).fetchCalls = s.fetchCalls ∧
    (handlePrefectureToggle s code false name).outstanding = s.outstanding ∧
    chartSeries allPrefectures (handlePrefectureToggle s code false name) =
      chartSeries (allPrefectures.filter (fun p => p.prefCode ≠ code))
        (handlePrefectureToggle s code false name) := by
  rw [toggle_off_eq]
  exact ⟨by simp, by simp, rfl, rfl,
    chartSeries_drop_uncached _ _ code (by simp)⟩

/-- C5 — Cache-hit short-circuit: toggling on a code whose cache entry
exists only sets `selectedPrefs[code] = true`; the cache, fetch flags,
outstanding fetches and the fetch-call count are untouched. -/
theorem cache_hit_short_circuit (s : HookState) (code : Int) (name : String)
    (d : PopulationData) (hc : s.populationCache code = some d) :
    (handlePrefectureToggle s code true name).selectedPrefs code = true ∧
    (handlePrefectureToggle s code true name).populationCache = s.populationCache ∧
    (handlePrefectureToggle s code true name).isFetching = s.isFetching ∧
    (handlePrefectureToggle s code true name).outstanding = s.outstanding ∧
    (handlePrefectureToggle s code true name).fetchCalls = s.fetchCalls := by
  rw [toggle_on_cache_hit_eq s code name d hc]
  exact ⟨by simp, rfl, rfl, rfl, rfl⟩

/-- C5 witness: toggling on an already-cached code 13. -/
theorem cache_hit_short_circuit_witness :
    (handlePrefectureToggle
        { initState with populationCache := fun c =>
            if c = 13 then some ⟨13, "東京都", [⟨2015, 100⟩]⟩ else none }
        13 true "東京都").selectedPrefs 13 = true ∧
    (handlePrefectureToggle
        { initState with populationCache := fun c =>
            if c = 13 then some ⟨13, "東京都", [⟨2015, 100⟩]⟩ else none }
        13 true "東京都").populationCache =
      ({ initState with populationCache := fun c =>
          if c = 13 then some ⟨13, "東京都", [⟨2015, 100⟩]⟩ else none } :
        HookState).populationCache ∧
    (handlePrefectureToggle
        { initState with populationCache := fun c =>
            if c = 13 then some ⟨13, "東京都", [⟨2015, 100⟩]⟩ else none }
        13 true "東京都").isFetching =
      ({ initState with populationCache := fun c =>
          if c = 13 then some ⟨13, "東京都", [⟨2015, 100⟩]⟩ else none } :
        HookState).isFetching ∧
    (handlePrefectureToggle
        { initState with populationCache := fun c =>
            if c = 13 then some ⟨13, "東京都", [⟨2015, 100⟩]⟩ else none }
        13 true "東京都").outstanding =
      ({ initState with populationCache := fun c =>
          if c = 13 then some ⟨13, "東京都", [⟨2015, 100⟩]⟩ else none } :
        HookState).outstanding ∧
    (handlePrefectureToggle
        { initState with populationCache := fun c =>
            if c = 13 then some ⟨13, "東京都", [⟨2015, 100⟩]⟩ else none }
        13 true "東京都").fetchCalls =
      ({ initState with populationCache := fun c =>
          if c = 13 then some ⟨13, "東京都", [⟨2015, 100⟩]⟩ else none } :
        HookState).fetchCalls :=
  cache_hit_short_circuit
    { initState with populationCache := fun c =>
        if c = 13 then some ⟨13, "東京都", [⟨2015, 100⟩]⟩ else none }
    13 "東京都" ⟨13, "東京都", [⟨2015, 100⟩]⟩ (by decide)

/-- C9 — chart series order follows the catalog: `chartSeries` is the
catalog list filter-mapped — an entry appears exactly for catalog
prefectures that are selected and cached, in catalog order (the state
carries no toggle history, so toggle order cannot influence the output);
likewise the selected-codes derivation follows catalog order. -/
theorem chart_series_catalog_order (allPrefectures : List Prefecture) (s : HookState) :
    chartSeries allPrefectures s = allPrefectures.filterMap (fun pref =>
      if s.selectedPrefs pref.prefCode = true then
        (s.populationCache pref.prefCode).map toChartSeries
      else none) ∧
    selectedPrefCodeList allPrefectures s =
      (allPrefectures.filter (fun pref => s.selectedPrefs pref.prefCode)).map
        (fun pref => pref.prefCode) :=
  ⟨chartSeries_eq_filterMap allPrefectures s, rfl⟩

end Prefs
